import Mathlib

/-!
Verification of the sliced-scroll export engine (esexport).

Shallow embedding of:
  * `client/client.go` — response types, shard validation, response handling;
  * `cursor/cursor.go` — `SlicedScrollCursor` with `NewSlicedScrollCursor`,
    `Next`, `search`, `scroll`, `done`, `searchQuery`;
  * `main.go` — `processCursor` and `processingProgress`.

Go `map[string]interface{}` values are embedded as association lists with
`String` keys (a Go map holds each key at most once, so the lists we reason
about have nodup keys); Go map assignment `m[k] = v` becomes `mapSet`.
Go `int` is embedded as `Int` (lengths of in-memory lists and their running
sums stay far below 2^63, so wraparound is unreachable and is not modelled).
Fallible Go calls `(T, error)` become `Except E T`.
-/

namespace Esexport

/-- A value stored in a Go `map[string]interface{}` query body.  The base
query's values are opaque (`base`); the only value the cursor code itself
builds is the slice descriptor map literal `{"id": ..., "max": ...}` with an
optional `"field"` entry, embedded as `sliceObj` (its key set is fixed, so the
record of its three fields determines the map literal exactly). -/
inductive QVal (α : Type) where
  | base (a : α)
  | sliceObj (id : Int) (max : Int) (field : Option String)
  deriving DecidableEq, Repr

/-- A Go string-keyed map, embedded as an association list. -/
abbrev QMap (α : Type) := List (String × QVal α)

/-- Go map assignment `m[k] = v`: replace the binding of `k` when present,
otherwise add a new binding. -/
def mapSet {α : Type} (m : QMap α) (k : String) (v : QVal α) : QMap α :=
  if (m.map Prod.fst).contains k then
    m.map (fun p => if p.1 = k then (k, v) else p)
  else
    m ++ [(k, v)]

/-- The copy loop `query := make(map); for k, v := range ssc.query
\x7b query[k] = v \x7d`: assign every entry of `m` into a fresh empty map. -/
def mapCopy {α : Type} (m : QMap α) : QMap α :=
  m.foldl (fun acc p => mapSet acc p.1 p.2) []

/-- `client.Hit`: a returned document (`_id` plus an opaque source). -/
structure Hit (α : Type) where
  id : String
  source : QMap α
  deriving DecidableEq, Repr

/-- `client.Hits`: the `hits` part of a search response. -/
structure Hits (H : Type) where
  total : Int
  hits : List H
  deriving DecidableEq, Repr

/-- `client.Shards`: the `_shards` part of a search response. -/
structure Shards where
  total : Int
  successful : Int
  failed : Int
  deriving DecidableEq, Repr

/-- `client.ESSearchResponse`: a decoded search or scroll response. -/
structure ESSearchResponse (H : Type) where
  scrollID : String
  hits : Hits H
  shards : Shards
  deriving DecidableEq, Repr

/-- Errors produced by the client layer (`client/client.go`). -/
inductive ClientError where
  | unexpectedResponse (status : Int)
  | decodeError
  | responseIncomplete (total successful failed : Int)
  deriving DecidableEq, Repr

/-- An HTTP response as seen by `Client.searchResponse`: a status code and a
body that either decodes to an `ESSearchResponse` or fails to decode. -/
structure HTTPResponse (H : Type) where
  statusCode : Int
  decodedBody : Option (ESSearchResponse H)
  deriving DecidableEq, Repr

/-- `Client.validateShardsResponse`: reject a response unless
`failed == 0 && successful == total`. -/
def validateShardsResponse {H : Type} (r : ESSearchResponse H) : Option ClientError :=
  if ¬(r.shards.failed = 0 ∧ r.shards.successful = r.shards.total) then
    some (ClientError.responseIncomplete r.shards.total r.shards.successful r.shards.failed)
  else
    none

/-- `Client.searchResponse`: non-200 statuses and undecodable bodies are
errors; a decoded body is validated against its shard statistics and returned
unchanged when the validation passes. -/
def searchResponse {H : Type} (resp : HTTPResponse H) : Except ClientError (ESSearchResponse H) :=
  if resp.statusCode ≠ 200 then
    Except.error (ClientError.unexpectedResponse resp.statusCode)
  else
    match resp.decodedBody with
    | none => Except.error ClientError.decodeError
    | some body =>
      match validateShardsResponse body with
      | some e => Except.error e
      | none => Except.ok body

/-- The `ElasticsearchClient` interface consumed by the cursor: a backend
capability with a search and a scroll operation.  `E` is the opaque error
type. -/
structure ESClient (α H E : Type) where
  search : QMap α → Except E (ESSearchResponse H)
  scroll : String → Except E (ESSearchResponse H)

/-- `cursor.SlicedScrollCursor`: iteration state for one slice.  `Total` and
`NumDocsRetrieved` are nullable (`*int` in Go). -/
structure SlicedScrollCursor (α H E : Type) where
  query : QMap α
  sliceID : Int
  sliceMax : Int
  sliceField : String
  Total : Option Int
  NumDocsRetrieved : Option Int
  lastScrollID : String
  deriving DecidableEq, Repr

/-- `NewSlicedScrollCursor`: fails when `max >= 2 && id >= max`, otherwise
returns a fresh cursor with both counters nil. -/
def NewSlicedScrollCursor {α H E : Type} (id max : Int) (field : String)
    (query : QMap α) : Except String (SlicedScrollCursor α H E) :=
  if max ≥ 2 ∧ id ≥ max then
    Except.error "Max must be greater than id"
  else
    Except.ok { query := query, sliceID := id, sliceMax := max, sliceField := field,
                Total := none, NumDocsRetrieved := none, lastScrollID := "" }

/-- `SlicedScrollCursor.searchQuery`: copy the base query and, when
`sliceMax > 1`, assign the slice descriptor under key `"slice"`, with the
`"field"` entry present exactly when `sliceField` is non-empty. -/
def searchQuery {α H E : Type} (ssc : SlicedScrollCursor α H E) : QMap α :=
  let query := mapCopy ssc.query
  if ssc.sliceMax > 1 then
    mapSet query "slice"
      (QVal.sliceObj ssc.sliceID ssc.sliceMax
        (if ssc.sliceField ≠ "" then some ssc.sliceField else none))
  else
    query

/-- `done`: `*ssc.NumDocsRetrieved == *ssc.Total`.  The Go code dereferences
both pointers; the embedding reads them with default `0`, and the safety
claim shows the defaults are never reached from a constructed cursor. -/
def done {α H E : Type} (ssc : SlicedScrollCursor α H E) : Bool :=
  if ssc.NumDocsRetrieved.getD 0 = ssc.Total.getD 0 then true else false

/-- Ghost record of the backend call a `Next` step issued, used to state the
"issues no backend call" parts of the spec. -/
inductive BackendCall (α : Type) where
  | searchCall (body : QMap α)
  | scrollCall (scrollID : String)
  deriving DecidableEq, Repr

/-- The outcome of one `Next` call: the returned hits and error, the cursor
state after the call, and (ghost) which backend call was issued, if any. -/
structure NextResult (α H E : Type) where
  hits : List H
  err : Option E
  state : SlicedScrollCursor α H E
  issued : Option (BackendCall α)
  deriving DecidableEq, Repr

/-- `SlicedScrollCursor.search`: issue the search, and on success record
`Total` from the response's hit count, `NumDocsRetrieved` from the number of
returned documents, and the scroll id; on error return it with the state
untouched. -/
def search {α H E : Type} (ssc : SlicedScrollCursor α H E) (cl : ESClient α H E) :
    NextResult α H E :=
  match cl.search (searchQuery ssc) with
  | Except.error e =>
      { hits := [], err := some e, state := ssc,
        issued := some (BackendCall.searchCall (searchQuery ssc)) }
  | Except.ok resp =>
      { hits := resp.hits.hits, err := none,
        state := { ssc with Total := some resp.hits.total,
                            NumDocsRetrieved := some (resp.hits.hits.length : Int),
                            lastScrollID := resp.scrollID },
        issued := some (BackendCall.searchCall (searchQuery ssc)) }

/-- `SlicedScrollCursor.scroll`: issue the scroll, and on success add the
number of returned documents to `NumDocsRetrieved` and update the scroll id;
on error return it with the state untouched. -/
def scroll {α H E : Type} (ssc : SlicedScrollCursor α H E) (cl : ESClient α H E)
    (id : String) : NextResult α H E :=
  match cl.scroll id with
  | Except.error e =>
      { hits := [], err := some e, state := ssc,
        issued := some (BackendCall.scrollCall id) }
  | Except.ok resp =>
      { hits := resp.hits.hits, err := none,
        state := { ssc with
                    NumDocsRetrieved :=
                      some ((resp.hits.hits.length : Int) + ssc.NumDocsRetrieved.getD 0),
                    lastScrollID := resp.scrollID },
        issued := some (BackendCall.scrollCall id) }

/-- `SlicedScrollCursor.Next`: first call issues a search; afterwards, while
not exhausted, a scroll with the stored id; once exhausted, return an empty
batch without contacting the backend.  The Go cursor stores its client at
construction; the embedding passes the client at each call (a fixed client is
the special case of passing the same one every time). -/
def Next {α H E : Type} (ssc : SlicedScrollCursor α H E) (cl : ESClient α H E) :
    NextResult α H E :=
  match ssc.Total with
  | none => search ssc cl
  | some _ =>
      if ¬ done ssc then
        scroll ssc cl ssc.lastScrollID
      else
        { hits := [], err := none, state := ssc, issued := none }

/-- Run a sequence of `Next` calls, one per listed client, collecting every
call's outcome. -/
def runNexts {α H E : Type} (ssc : SlicedScrollCursor α H E) :
    List (ESClient α H E) → List (NextResult α H E)
  | [] => []
  | cl :: cls =>
      let r := Next ssc cl
      r :: runNexts r.state cls

/-- The cursor state after a sequence of `Next` calls. -/
def iterNext {α H E : Type} (ssc : SlicedScrollCursor α H E) :
    List (ESClient α H E) → SlicedScrollCursor α H E
  | [] => ssc
  | cl :: cls => iterNext (Next ssc cl).state cls

/-- The states a cursor passes through under a sequence of `Next` calls,
starting state included. -/
def stateTrace {α H E : Type} (ssc : SlicedScrollCursor α H E)
    (cls : List (ESClient α H E)) : List (SlicedScrollCursor α H E) :=
  ssc :: (runNexts ssc cls).map NextResult.state

/-- A backend that answers every search and every scroll call with the fixed
response `r`. -/
def constClient {α H E : Type} (r : ESSearchResponse H) : ESClient α H E :=
  { search := fun _ => Except.ok r, scroll := fun _ => Except.ok r }

/-- Feed the cursor one response per `Next` call; `none` when some call did
not contact the backend (the cursor was already exhausted), so `some` runs
are exactly the runs of K successful backend-contacting `next()` calls. -/
def runResponses {α H E : Type} : SlicedScrollCursor α H E →
    List (ESSearchResponse H) → Option (SlicedScrollCursor α H E)
  | c, [] => some c
  | c, r :: rs =>
      let res := Next c (constClient r)
      if res.issued.isSome then runResponses res.state rs else none

/-- `main.processCursor`: loop calling `Next`; a returned error ends the loop
with that error; an empty batch ends it with success; otherwise, when an
output file is open, write the batch (a failed write ends the loop with the
write error) and continue.  The loop is driven by `fuel` (the Go loop is
unbounded); `none` means the fuel ran out before the loop ended.  `clients`
gives the backend used at each iteration (`step` numbers the iterations);
`write` embeds `writeHitsToFile` on the open output file. -/
def processCursor {α H E : Type} (write : List H → Except E Unit) (output : Bool)
    (clients : Nat → ESClient α H E) :
    Nat → Nat → SlicedScrollCursor α H E → Option (Except E Unit)
  | 0, _, _ => none
  | fuel + 1, step, c =>
      let r := Next c (clients step)
      match r.err with
      | some e => some (Except.error e)
      | none =>
          if r.hits.length = 0 then
            some (Except.ok ())
          else if output then
            match write r.hits with
            | Except.error e => some (Except.error e)
            | Except.ok _ => processCursor write output clients fuel (step + 1) r.state
          else
            processCursor write output clients fuel (step + 1) r.state

/-- `k` completed iterations of the `processCursor` loop: each `Next` call
succeeded with a non-empty batch and (when output is open) its write
succeeded.  Returns the cursor state facing iteration `step + k`, or `none`
when the loop would have ended earlier. -/
def loopSteps {α H E : Type} (write : List H → Except E Unit) (output : Bool)
    (clients : Nat → ESClient α H E) :
    Nat → Nat → SlicedScrollCursor α H E → Option (SlicedScrollCursor α H E)
  | 0, _, c => some c
  | k + 1, step, c =>
      let r := Next c (clients step)
      match r.err, r.hits with
      | none, _ :: _ =>
          if output then
            match write r.hits with
            | Except.ok _ => loopSteps write output clients k (step + 1) r.state
            | Except.error _ => none
          else
            loopSteps write output clients k (step + 1) r.state
      | _, _ => none

/-- The loop body of `main.processingProgress`, accumulating the retrieved
and total sums; any cursor with a nil counter aborts with `(nil, nil)`. -/
def processingProgressGo {α H E : Type} :
    List (SlicedScrollCursor α H E) → Int → Int → Option (Int × Int)
  | [], c, t => some (c, t)
  | cur :: rest, c, t =>
      match cur.Total, cur.NumDocsRetrieved with
      | some tt, some nn => processingProgressGo rest (c + nn) (t + tt)
      | _, _ => none

/-- `main.processingProgress`: the aggregate `(current, total)` snapshot over
all cursors, or `none` when any cursor's counters are still nil. -/
def processingProgress {α H E : Type} (cursors : List (SlicedScrollCursor α H E)) :
    Option (Int × Int) :=
  processingProgressGo cursors 0 0

/-- A backend discipline along a run: every successful search response
reports at least as many total matches as documents returned, and every
successful scroll response returns at most the documents still outstanding
for the cursor state it answers.  This is the well-behavedness the
Elasticsearch contract provides and the spec's `retrieved <= total`
invariant relies on. -/
def OkRun {α H E : Type} : SlicedScrollCursor α H E → List (ESClient α H E) → Prop
  | _, [] => True
  | c, cl :: cls =>
      ((c.Total = none → ∀ r, cl.search (searchQuery c) = Except.ok r →
          (r.hits.hits.length : Int) ≤ r.hits.total) ∧
       (∀ t n, c.Total = some t → c.NumDocsRetrieved = some n →
          ∀ r, cl.scroll c.lastScrollID = Except.ok r →
            (r.hits.hits.length : Int) ≤ t - n)) ∧
      OkRun (Next c cl).state cls

/-! ## Map lemmas -/

theorem mapSet_of_not_mem {α : Type} (m : QMap α) (k : String) (v : QVal α)
    (h : k ∉ m.map Prod.fst) : mapSet m k v = m ++ [(k, v)] := by
  unfold mapSet
  simp [h]

theorem foldl_mapSet_of_disjoint {α : Type} (m : QMap α) :
    ∀ acc : QMap α, (m.map Prod.fst).Nodup →
    (∀ x ∈ m.map Prod.fst, x ∉ acc.map Prod.fst) →
    m.foldl (fun a p => mapSet a p.1 p.2) acc = acc ++ m := by
  induction m with
  | nil => intro acc _ _; simp
  | cons p m ih =>
      intro acc hnd hdisj
      obtain ⟨k, v⟩ := p
      have hnd' : (k :: m.map Prod.fst).Nodup := by
        simpa only [List.map_cons] using hnd
      have hknd : k ∉ m.map Prod.fst := (List.nodup_cons.mp hnd').1
      have hmnd : (m.map Prod.fst).Nodup := (List.nodup_cons.mp hnd').2
      have hk : k ∉ acc.map Prod.fst := hdisj k (by simp)
      have hdisj' : ∀ x ∈ m.map Prod.fst, x ∉ (acc ++ [(k, v)]).map Prod.fst := by
        intro x hx
        simp only [List.map_append, List.mem_append, List.map_cons, List.map_nil,
          List.mem_singleton, not_or]
        constructor
        · exact hdisj x (by simp [hx])
        · intro hxk
          exact hknd (hxk ▸ hx)
      simp only [List.foldl_cons]
      rw [mapSet_of_not_mem acc k v hk, ih (acc ++ [(k, v)]) hmnd hdisj']
      simp

/-- Copying a Go map yields the same map (the range loop visits each key
exactly once). -/
theorem mapCopy_eq_self {α : Type} (m : QMap α) (h : (m.map Prod.fst).Nodup) :
    mapCopy m = m := by
  unfold mapCopy
  simpa using foldl_mapSet_of_disjoint m [] h (by simp)

/-! ## Claim theorems -/

/-- **C1.** For every base query (with the nodup keys every Go map has), a
`sliceCount ≤ 1` leaves the outgoing query exactly `baseQuery`; for a valid
pair with `sliceCount ≥ 2` the outgoing query is `baseQuery` with the slice
descriptor `{id, max}` assigned under `"slice"`, and the descriptor carries a
field entry exactly when `sliceField` is non-empty. -/
theorem searchQuery_slice_clause {α H E : Type} (ssc : SlicedScrollCursor α H E)
    (hnd : (ssc.query.map Prod.fst).Nodup) :
    (ssc.sliceMax ≤ 1 → searchQuery ssc = ssc.query) ∧
    (2 ≤ ssc.sliceMax → ssc.sliceID < ssc.sliceMax →
      ((ssc.sliceField = "" →
          searchQuery ssc =
            mapSet ssc.query "slice" (QVal.sliceObj ssc.sliceID ssc.sliceMax none)) ∧
       (ssc.sliceField ≠ "" →
          searchQuery ssc =
            mapSet ssc.query "slice"
              (QVal.sliceObj ssc.sliceID ssc.sliceMax (some ssc.sliceField))))) := by
  constructor
  · intro h
    have hle : ¬ ssc.sliceMax > 1 := by omega
    simp [searchQuery, hle, mapCopy_eq_self ssc.query hnd]
  · intro h2 _hlt
    have hgt : ssc.sliceMax > 1 := by omega
    constructor
    · intro hf
      simp [searchQuery, hgt, hf, mapCopy_eq_self ssc.query hnd]
    · intro hf
      simp [searchQuery, hgt, hf, mapCopy_eq_self ssc.query hnd]

theorem searchQuery_slice_clause_witness :
    (([("q", QVal.base (0 : Nat))].map Prod.fst).Nodup) ∧
    searchQuery (H := Nat) (E := String)
      { query := [("q", QVal.base (0 : Nat))], sliceID := 1, sliceMax := 2,
        sliceField := "f", Total := none, NumDocsRetrieved := none, lastScrollID := "" } =
      mapSet [("q", QVal.base (0 : Nat))] "slice" (QVal.sliceObj 1 2 (some "f")) :=
  ⟨by decide,
   ((searchQuery_slice_clause _ (by decide)).2 (by decide) (by decide)).2 (by decide)⟩

/-- **C2.** Construction fails (with the invalid-partition error) iff
`sliceCount ≥ 2` and `sliceIndex ≥ sliceCount`; otherwise it yields the fresh
cursor, and in particular a `sliceCount` of 0 or 1 succeeds for every
`sliceIndex`. -/
theorem newSlicedScrollCursor_invalid_iff {α H E : Type} (id max : Int)
    (field : String) (q : QMap α) :
    ((2 ≤ max ∧ max ≤ id) →
        NewSlicedScrollCursor (α := α) (H := H) (E := E) id max field q =
          Except.error "Max must be greater than id") ∧
    (¬(2 ≤ max ∧ max ≤ id) →
        NewSlicedScrollCursor (α := α) (H := H) (E := E) id max field q =
          Except.ok { query := q, sliceID := id, sliceMax := max, sliceField := field,
                      Total := none, NumDocsRetrieved := none, lastScrollID := "" }) ∧
    (max = 0 ∨ max = 1 →
        NewSlicedScrollCursor (α := α) (H := H) (E := E) id max field q =
          Except.ok { query := q, sliceID := id, sliceMax := max, sliceField := field,
                      Total := none, NumDocsRetrieved := none, lastScrollID := "" }) := by
  refine ⟨?_, ?_, ?_⟩
  · intro h
    unfold NewSlicedScrollCursor
    rw [if_pos]
    exact ⟨h.1, h.2⟩
  · intro h
    unfold NewSlicedScrollCursor
    rw [if_neg]
    intro hc
    exact h ⟨hc.1, hc.2⟩
  · intro h
    unfold NewSlicedScrollCursor
    rw [if_neg]
    intro hc
    rcases h with h | h <;> rcases hc with ⟨h2, _⟩ <;> omega

theorem newSlicedScrollCursor_invalid_iff_witness :
    NewSlicedScrollCursor (α := Nat) (H := Nat) (E := String) 2 2 "" [] =
      Except.error "Max must be greater than id" ∧
    NewSlicedScrollCursor (α := Nat) (H := Nat) (E := String) 5 1 "" [] =
      Except.ok { query := [], sliceID := 5, sliceMax := 1, sliceField := "",
                  Total := none, NumDocsRetrieved := none, lastScrollID := "" } :=
  ⟨(newSlicedScrollCursor_invalid_iff 2 2 "" []).1 (by decide),
   (newSlicedScrollCursor_invalid_iff 5 1 "" []).2.2 (Or.inr rfl)⟩

/-- An exhausted cursor answers `Next` with an empty batch, no error, no
backend call, and an unchanged state (helper shared by several claims). -/
theorem next_of_exhausted {α H E : Type} (ssc : SlicedScrollCursor α H E) (t : Int)
    (htot : ssc.Total = some t) (hret : ssc.NumDocsRetrieved = some t)
    (cl : ESClient α H E) :
    Next ssc cl = { hits := [], err := none, state := ssc, issued := none } := by
  simp [Next, done, htot, hret]

/-- **C3.** For a cursor whose retrieved count equals its total (both known),
every further `Next` call returns an empty batch, issues no backend call, and
leaves the cursor state unchanged — for any sequence of further calls. -/
theorem next_after_exhaustion {α H E : Type} (ssc : SlicedScrollCursor α H E)
    (t : Int) (htot : ssc.Total = some t) (hret : ssc.NumDocsRetrieved = some t) :
    ∀ (cls : List (ESClient α H E)) (r : NextResult α H E), r ∈ runNexts ssc cls →
      r.hits = [] ∧ r.err = none ∧ r.issued = none ∧ r.state = ssc := by
  intro cls
  induction cls with
  | nil =>
      intro r hr
      simp [runNexts] at hr
  | cons cl cls ih =>
      intro r hr
      rw [runNexts, next_of_exhausted ssc t htot hret cl] at hr
      rcases List.mem_cons.mp hr with h | h
      · subst h
        exact ⟨rfl, rfl, rfl, rfl⟩
      · exact ih r h

theorem next_after_exhaustion_witness :
    (({ query := [], sliceID := 0, sliceMax := 1, sliceField := "",
        Total := some 2, NumDocsRetrieved := some 2, lastScrollID := "s" } :
        SlicedScrollCursor Nat Nat String).Total = some 2) ∧
    (({ hits := [], err := none,
        state := { query := [], sliceID := 0, sliceMax := 1, sliceField := "",
                   Total := some 2, NumDocsRetrieved := some 2, lastScrollID := "s" },
        issued := none } : NextResult Nat Nat String).hits = [] ∧
      ({ hits := [], err := none,
         state := { query := [], sliceID := 0, sliceMax := 1, sliceField := "",
                    Total := some 2, NumDocsRetrieved := some 2, lastScrollID := "s" },
         issued := none } : NextResult Nat Nat String).err = none ∧
      ({ hits := [], err := none,
         state := { query := [], sliceID := 0, sliceMax := 1, sliceField := "",
                    Total := some 2, NumDocsRetrieved := some 2, lastScrollID := "s" },
         issued := none } : NextResult Nat Nat String).issued = none ∧
      ({ hits := [], err := none,
         state := { query := [], sliceID := 0, sliceMax := 1, sliceField := "",
                    Total := some 2, NumDocsRetrieved := some 2, lastScrollID := "s" },
         issued := none } : NextResult Nat Nat String).state =
        { query := [], sliceID := 0, sliceMax := 1, sliceField := "",
          Total := some 2, NumDocsRetrieved := some 2, lastScrollID := "s" }) :=
  ⟨rfl,
   next_after_exhaustion _ 2 rfl rfl
     [constClient { scrollID := "x", hits := { total := 5, hits := [7] },
                    shards := { total := 1, successful := 1, failed := 0 } }]
     _ (by decide)⟩

/-- **C4.** If the backend call issued by `Next` returns an error, `Next`
propagates exactly that error, returns no hits, and leaves the cursor state
(total, retrieved count, continuation token) at its pre-call value. -/
theorem next_error_state_unchanged {α H E : Type} (ssc : SlicedScrollCursor α H E)
    (cl : ESClient α H E) (e : E)
    (h : (ssc.Total = none ∧ cl.search (searchQuery ssc) = Except.error e) ∨
         (ssc.Total ≠ none ∧ done ssc = false ∧
           cl.scroll ssc.lastScrollID = Except.error e)) :
    (Next ssc cl).err = some e ∧ (Next ssc cl).state = ssc ∧
      (Next ssc cl).hits = [] := by
  rcases h with ⟨htot, hcall⟩ | ⟨htot, hdone, hcall⟩
  · simp [Next, htot, search, hcall]
  · cases ht : ssc.Total with
    | none => exact absurd ht htot
    | some t => simp [Next, ht, hdone, scroll, hcall]

theorem next_error_state_unchanged_witness :
    (Next ({ query := [], sliceID := 0, sliceMax := 1, sliceField := "",
             Total := none, NumDocsRetrieved := none, lastScrollID := "" } :
             SlicedScrollCursor Nat Nat String)
        { search := fun _ => Except.error "boom",
          scroll := fun _ => Except.error "boom" }).err = some "boom" ∧
    (Next ({ query := [], sliceID := 0, sliceMax := 1, sliceField := "",
             Total := none, NumDocsRetrieved := none, lastScrollID := "" } :
             SlicedScrollCursor Nat Nat String)
        { search := fun _ => Except.error "boom",
          scroll := fun _ => Except.error "boom" }).state =
      { query := [], sliceID := 0, sliceMax := 1, sliceField := "",
        Total := none, NumDocsRetrieved := none, lastScrollID := "" } ∧
    (Next ({ query := [], sliceID := 0, sliceMax := 1, sliceField := "",
             Total := none, NumDocsRetrieved := none, lastScrollID := "" } :
             SlicedScrollCursor Nat Nat String)
        { search := fun _ => Except.error "boom",
          scroll := fun _ => Except.error "boom" }).hits = [] :=
  next_error_state_unchanged _ _ "boom" (Or.inl ⟨rfl, rfl⟩)

/-- A successfully constructed cursor starts with both counters nil. -/
theorem newSlicedScrollCursor_ok_shape {α H E : Type} (id max : Int) (field : String)
    (q : QMap α) (c0 : SlicedScrollCursor α H E)
    (hok : NewSlicedScrollCursor id max field q = Except.ok c0) :
    c0.Total = none ∧ c0.NumDocsRetrieved = none := by
  unfold NewSlicedScrollCursor at hok
  split at hok
  · cases hok
  · rw [Except.ok.injEq] at hok
    subst hok
    exact ⟨rfl, rfl⟩

/-- Scroll phase of a response-fed run: `Total` never changes and
`NumDocsRetrieved` grows by exactly the documents of each consumed
response. -/
theorem runResponses_scroll_phase {α H E : Type} :
    ∀ (rs : List (ESSearchResponse H)) (c : SlicedScrollCursor α H E) (t n : Int),
      c.Total = some t → c.NumDocsRetrieved = some n →
      ∀ c', runResponses c rs = some c' →
        c'.Total = some t ∧
        c'.NumDocsRetrieved =
          some (n + (rs.map (fun r => (r.hits.hits.length : Int))).sum) := by
  intro rs
  induction rs with
  | nil =>
      intro c t n ht hn c' hrun
      simp [runResponses] at hrun
      subst hrun
      simp [ht, hn]
  | cons r rs ih =>
      intro c t n ht hn c' hrun
      by_cases hd : done c
      · have hnt : n = t := by
          simp [done, ht, hn] at hd
          exact hd
        subst hnt
        rw [runResponses, next_of_exhausted c n ht hn] at hrun
        simp at hrun
      · rw [runResponses] at hrun
        have hnext : Next c (constClient r) = scroll c (constClient r) c.lastScrollID := by
          simp [Next, ht, hd]
        have hscroll : scroll c (constClient (α := α) (E := E) r) c.lastScrollID =
            { hits := r.hits.hits, err := none,
              state := { c with
                          NumDocsRetrieved := some ((r.hits.hits.length : Int) + n),
                          lastScrollID := r.scrollID },
              issued := some (BackendCall.scrollCall c.lastScrollID) } := by
          simp [scroll, constClient, hn]
        rw [hnext, hscroll] at hrun
        simp only [Option.isSome_some, if_pos] at hrun
        obtain ⟨hT, hc'⟩ :=
          ih { c with NumDocsRetrieved := some ((r.hits.hits.length : Int) + n),
                      lastScrollID := r.scrollID }
            t ((r.hits.hits.length : Int) + n) ht rfl c' hrun
        refine ⟨hT, ?_⟩
        rw [hc']
        congr 1
        simp [List.sum_cons]
        ring

/-- **C7.** For any run of K successful backend-contacting `next()` calls on
a fresh cursor, the final retrieved count is the sum of the document counts
of the K responses, and `Total` is exactly the hit-count of the first
(search) response — subsequent scroll responses never modify it. -/
theorem total_set_once_retrieved_sums {α H E : Type} (id max : Int) (field : String)
    (q : QMap α) (c0 : SlicedScrollCursor α H E)
    (hok : NewSlicedScrollCursor id max field q = Except.ok c0)
    (r : ESSearchResponse H) (rs : List (ESSearchResponse H))
    (c' : SlicedScrollCursor α H E)
    (hrun : runResponses c0 (r :: rs) = some c') :
    c'.Total = some r.hits.total ∧
    c'.NumDocsRetrieved =
      some (((r :: rs).map (fun x => (x.hits.hits.length : Int))).sum) := by
  obtain ⟨hT0, _⟩ := newSlicedScrollCursor_ok_shape id max field q c0 hok
  rw [runResponses] at hrun
  have hnext : Next c0 (constClient r) = search c0 (constClient r) := by
    simp [Next, hT0]
  have hsearch : search c0 (constClient (α := α) (E := E) r) =
      { hits := r.hits.hits, err := none,
        state := { c0 with Total := some r.hits.total,
                            NumDocsRetrieved := some (r.hits.hits.length : Int),
                            lastScrollID := r.scrollID },
        issued := some (BackendCall.searchCall (searchQuery c0)) } := by
    simp [search, constClient]
  rw [hnext, hsearch] at hrun
  simp only [Option.isSome_some, if_pos] at hrun
  obtain ⟨hT, hN⟩ :=
    runResponses_scroll_phase rs _ r.hits.total (r.hits.hits.length : Int) rfl rfl c' hrun
  refine ⟨hT, ?_⟩
  rw [hN]
  simp [List.sum_cons]

theorem total_set_once_retrieved_sums_witness :
    NewSlicedScrollCursor (α := Nat) (H := Nat) (E := String) 0 2 "" [] =
      Except.ok { query := [], sliceID := 0, sliceMax := 2, sliceField := "",
                  Total := none, NumDocsRetrieved := none, lastScrollID := "" } ∧
    ({ query := [], sliceID := 0, sliceMax := 2, sliceField := "",
       Total := some 3, NumDocsRetrieved := some 3, lastScrollID := "s2" } :
       SlicedScrollCursor Nat Nat String).Total = some 3 ∧
    ({ query := [], sliceID := 0, sliceMax := 2, sliceField := "",
       Total := some 3, NumDocsRetrieved := some 3, lastScrollID := "s2" } :
       SlicedScrollCursor Nat Nat String).NumDocsRetrieved = some 3 := by
  have h :=
    total_set_once_retrieved_sums (α := Nat) (H := Nat) (E := String) 0 2 "" []
      { query := [], sliceID := 0, sliceMax := 2, sliceField := "",
        Total := none, NumDocsRetrieved := none, lastScrollID := "" }
      rfl
      { scrollID := "s1", hits := { total := 3, hits := [10] },
        shards := { total := 1, successful := 1, failed := 0 } }
      [{ scrollID := "s2", hits := { total := 99, hits := [20, 30] },
         shards := { total := 1, successful := 1, failed := 0 } }]
      { query := [], sliceID := 0, sliceMax := 2, sliceField := "",
        Total := some 3, NumDocsRetrieved := some 3, lastScrollID := "s2" }
      (by decide)
  refine ⟨rfl, h.1, by rw [h.2]; decide⟩

theorem stateTrace_cons {α H E : Type} (c : SlicedScrollCursor α H E)
    (cl : ESClient α H E) (cls : List (ESClient α H E)) :
    stateTrace c (cl :: cls) = c :: stateTrace (Next c cl).state cls := by
  simp [stateTrace, runNexts]

/-- One `Next` call keeps `Total` and `NumDocsRetrieved` nil-linked: they are
either both nil or both set. -/
theorem next_preserves_link {α H E : Type} (c : SlicedScrollCursor α H E)
    (cl : ESClient α H E) (h : c.Total = none ↔ c.NumDocsRetrieved = none) :
    ((Next c cl).state.Total = none ↔ (Next c cl).state.NumDocsRetrieved = none) := by
  cases ht : c.Total with
  | none =>
      have hn := h.mp ht
      cases hc : cl.search (searchQuery c) with
      | error e => simp [Next, search, ht, hc, hn]
      | ok r => simp [Next, search, ht, hc]
  | some t =>
      cases hnum : c.NumDocsRetrieved with
      | none =>
          rw [h.mpr hnum] at ht
          cases ht
      | some n =>
          by_cases hd : done c
          · simp [Next, ht, hd, hnum]
          · cases hc : cl.scroll c.lastScrollID with
            | error e => simp [Next, scroll, ht, hd, hc, hnum]
            | ok r => simp [Next, scroll, ht, hd, hc, hnum]

theorem stateTrace_all_link {α H E : Type} :
    ∀ (cls : List (ESClient α H E)) (c : SlicedScrollCursor α H E),
      (c.Total = none ↔ c.NumDocsRetrieved = none) →
      ∀ s ∈ stateTrace c cls, (s.Total = none ↔ s.NumDocsRetrieved = none) := by
  intro cls
  induction cls with
  | nil =>
      intro c h s hs
      simp [stateTrace, runNexts] at hs
      subst hs
      exact h
  | cons cl cls ih =>
      intro c h s hs
      rw [stateTrace_cons] at hs
      rcases List.mem_cons.mp hs with rfl | hs'
      · exact h
      · exact ih _ (next_preserves_link c cl h) s hs'

/-- **C10.** On every state a constructed cursor reaches under any sequence
of `Next` calls (arbitrary backend successes and failures), `Total` is nil
iff `NumDocsRetrieved` is nil — both are assigned together by the first
successful search — so whenever `Total` is set (the only condition under
which `done` and `scroll` dereference the counters), `NumDocsRetrieved` is
set as well. -/
theorem counters_nil_together {α H E : Type} (id max : Int) (field : String)
    (q : QMap α) (c0 : SlicedScrollCursor α H E)
    (hok : NewSlicedScrollCursor id max field q = Except.ok c0)
    (cls : List (ESClient α H E)) :
    ∀ s ∈ stateTrace c0 cls,
      (s.Total = none ↔ s.NumDocsRetrieved = none) ∧
      (s.Total ≠ none → s.NumDocsRetrieved ≠ none) := by
  obtain ⟨hT, hN⟩ := newSlicedScrollCursor_ok_shape id max field q c0 hok
  intro s hs
  have h := stateTrace_all_link cls c0 (by rw [hT, hN]) s hs
  exact ⟨h, fun hT' hN' => hT' (h.mpr hN')⟩

theorem counters_nil_together_witness :
    (({ query := [], sliceID := 0, sliceMax := 1, sliceField := "",
        Total := some 1, NumDocsRetrieved := some 1, lastScrollID := "s" } :
        SlicedScrollCursor Nat Nat String).Total = none ↔
      ({ query := [], sliceID := 0, sliceMax := 1, sliceField := "",
         Total := some 1, NumDocsRetrieved := some 1, lastScrollID := "s" } :
         SlicedScrollCursor Nat Nat String).NumDocsRetrieved = none) ∧
    (({ query := [], sliceID := 0, sliceMax := 1, sliceField := "",
        Total := some 1, NumDocsRetrieved := some 1, lastScrollID := "s" } :
        SlicedScrollCursor Nat Nat String).Total ≠ none →
      ({ query := [], sliceID := 0, sliceMax := 1, sliceField := "",
         Total := some 1, NumDocsRetrieved := some 1, lastScrollID := "s" } :
         SlicedScrollCursor Nat Nat String).NumDocsRetrieved ≠ none) :=
  counters_nil_together (α := Nat) (H := Nat) (E := String) 0 1 "" []
    { query := [], sliceID := 0, sliceMax := 1, sliceField := "",
      Total := none, NumDocsRetrieved := none, lastScrollID := "" }
    rfl
    [constClient { scrollID := "s", hits := { total := 1, hits := [4] },
                   shards := { total := 1, successful := 1, failed := 0 } }]
    { query := [], sliceID := 0, sliceMax := 1, sliceField := "",
      Total := some 1, NumDocsRetrieved := some 1, lastScrollID := "s" }
    (by decide)

/-- One `Next` call never decreases the retrieved count (on nil-linked
states). -/
theorem next_retrieved_mono {α H E : Type} (c : SlicedScrollCursor α H E)
    (cl : ESClient α H E) (h : c.Total = none ↔ c.NumDocsRetrieved = none) :
    c.NumDocsRetrieved.getD 0 ≤ (Next c cl).state.NumDocsRetrieved.getD 0 := by
  cases ht : c.Total with
  | none =>
      have hn := h.mp ht
      cases hc : cl.search (searchQuery c) with
      | error e => simp [Next, search, ht, hc]
      | ok r => simp [Next, search, ht, hc, hn]
  | some t =>
      cases hnum : c.NumDocsRetrieved with
      | none =>
          rw [h.mpr hnum] at ht
          cases ht
      | some n =>
          by_cases hd : done c
          · simp [Next, ht, hd, hnum]
          · cases hc : cl.scroll c.lastScrollID with
            | error e => simp [Next, scroll, ht, hd, hc, hnum]
            | ok r => simp [Next, scroll, ht, hd, hc, hnum]

/-- One well-behaved `Next` call keeps `retrieved ≤ total` (on nil-linked
states). -/
theorem next_preserves_bound {α H E : Type} (c : SlicedScrollCursor α H E)
    (cl : ESClient α H E) (h : c.Total = none ↔ c.NumDocsRetrieved = none)
    (hb : ∀ t n, c.Total = some t → c.NumDocsRetrieved = some n → n ≤ t)
    (hsearch : c.Total = none → ∀ r, cl.search (searchQuery c) = Except.ok r →
        (r.hits.hits.length : Int) ≤ r.hits.total)
    (hscroll : ∀ t n, c.Total = some t → c.NumDocsRetrieved = some n →
        ∀ r, cl.scroll c.lastScrollID = Except.ok r →
          (r.hits.hits.length : Int) ≤ t - n) :
    ∀ t n, (Next c cl).state.Total = some t →
      (Next c cl).state.NumDocsRetrieved = some n → n ≤ t := by
  cases ht : c.Total with
  | none =>
      cases hc : cl.search (searchQuery c) with
      | error e =>
          have hstate : (Next c cl).state = c := by simp [Next, search, ht, hc]
          rw [hstate]
          exact hb
      | ok r =>
          have hstate : (Next c cl).state =
              { c with Total := some r.hits.total,
                       NumDocsRetrieved := some (r.hits.hits.length : Int),
                       lastScrollID := r.scrollID } := by
            simp [Next, search, ht, hc]
          rw [hstate]
          intro t n h1 h2
          simp only [Option.some.injEq] at h1 h2
          have := hsearch ht r hc
          omega
  | some t0 =>
      cases hnum : c.NumDocsRetrieved with
      | none =>
          rw [h.mpr hnum] at ht
          cases ht
      | some n0 =>
          by_cases hd : done c
          · have hstate : (Next c cl).state = c := by simp [Next, ht, hd]
            rw [hstate]
            exact hb
          · cases hc : cl.scroll c.lastScrollID with
            | error e =>
                have hstate : (Next c cl).state = c := by
                  simp [Next, scroll, ht, hd, hc]
                rw [hstate]
                exact hb
            | ok r =>
                have hstate : (Next c cl).state =
                    { c with NumDocsRetrieved :=
                               some ((r.hits.hits.length : Int) + n0),
                             lastScrollID := r.scrollID } := by
                  simp [Next, scroll, ht, hd, hc, hnum]
                rw [hstate]
                intro t n h1 h2
                simp only [Option.some.injEq] at h2
                have h1' : c.Total = some t := h1
                rw [ht] at h1'
                simp only [Option.some.injEq] at h1'
                have := hscroll t0 n0 ht hnum r hc
                omega

/-- The retrieved counts along any run from a nil-linked state form a
non-decreasing sequence. -/
theorem stateTrace_chain_mono {α H E : Type} :
    ∀ (cls : List (ESClient α H E)) (c : SlicedScrollCursor α H E),
      (c.Total = none ↔ c.NumDocsRetrieved = none) →
      List.Chain' (· ≤ ·)
        ((stateTrace c cls).map (fun s => s.NumDocsRetrieved.getD 0)) := by
  intro cls
  induction cls with
  | nil =>
      intro c _
      simp [stateTrace, runNexts]
  | cons cl cls ih =>
      intro c h
      rw [stateTrace_cons, List.map_cons, List.chain'_cons']
      refine ⟨?_, ih _ (next_preserves_link c cl h)⟩
      intro b hb
      have hshape : stateTrace (Next c cl).state cls =
          (Next c cl).state :: (runNexts (Next c cl).state cls).map NextResult.state :=
        rfl
      rw [hshape, List.map_cons, List.head?_cons, Option.mem_some_iff] at hb
      rw [← hb]
      exact next_retrieved_mono c cl h

/-- Under the `OkRun` discipline, every state along the run keeps
`retrieved ≤ total` whenever both are known. -/
theorem stateTrace_all_bounded {α H E : Type} :
    ∀ (cls : List (ESClient α H E)) (c : SlicedScrollCursor α H E),
      (c.Total = none ↔ c.NumDocsRetrieved = none) →
      (∀ t n, c.Total = some t → c.NumDocsRetrieved = some n → n ≤ t) →
      OkRun c cls →
      ∀ s ∈ stateTrace c cls,
        ∀ t n, s.Total = some t → s.NumDocsRetrieved = some n → n ≤ t := by
  intro cls
  induction cls with
  | nil =>
      intro c _ hb _ s hs
      simp [stateTrace, runNexts] at hs
      subst hs
      exact hb
  | cons cl cls ih =>
      intro c h hb hrun s hs
      obtain ⟨⟨hs1, hs2⟩, hrest⟩ := hrun
      rw [stateTrace_cons] at hs
      rcases List.mem_cons.mp hs with rfl | hs'
      · exact hb
      · exact ih _ (next_preserves_link c cl h)
          (next_preserves_bound c cl h hb hs1 hs2) hrest s hs'

/-- **C8 counterexample.** Against a backend whose first response reports
`total = 0` while returning one document, a constructed cursor ends one
`next()` call with `retrieved = 1 > 0 = total` although both are known: the
unconditional `retrieved <= total` part of the claim is false. -/
theorem retrieved_exceeds_total_counterexample :
    NewSlicedScrollCursor (α := Nat) (H := Nat) (E := String) 0 1 "" [] =
      Except.ok { query := [], sliceID := 0, sliceMax := 1, sliceField := "",
                  Total := none, NumDocsRetrieved := none, lastScrollID := "" } ∧
    (Next ({ query := [], sliceID := 0, sliceMax := 1, sliceField := "",
             Total := none, NumDocsRetrieved := none, lastScrollID := "" } :
             SlicedScrollCursor Nat Nat String)
        (constClient { scrollID := "s", hits := { total := 0, hits := [9] },
                       shards := { total := 1, successful := 1, failed := 0 } })).state.Total =
      some 0 ∧
    (Next ({ query := [], sliceID := 0, sliceMax := 1, sliceField := "",
             Total := none, NumDocsRetrieved := none, lastScrollID := "" } :
             SlicedScrollCursor Nat Nat String)
        (constClient { scrollID := "s", hits := { total := 0, hits := [9] },
                       shards := { total := 1, successful := 1, failed := 0 } })).state.NumDocsRetrieved =
      some 1 ∧
    ¬((1 : Int) ≤ 0) :=
  ⟨rfl, by decide, by decide, by decide⟩

/-- **C8 (amended).** Along any run of `Next` calls from a constructed
cursor, the retrieved count is monotonically non-decreasing — for an
arbitrary backend; and under the `OkRun` backend discipline (search responses
return at most `total` documents, scroll responses at most the outstanding
remainder), every reached state with both counters known satisfies
`retrieved ≤ total`. -/
theorem retrieved_monotone_and_bounded {α H E : Type} (id max : Int) (field : String)
    (q : QMap α) (c0 : SlicedScrollCursor α H E)
    (hok : NewSlicedScrollCursor id max field q = Except.ok c0)
    (cls : List (ESClient α H E)) :
    List.Chain' (· ≤ ·) ((stateTrace c0 cls).map (fun s => s.NumDocsRetrieved.getD 0)) ∧
    (OkRun c0 cls → ∀ s ∈ stateTrace c0 cls,
      ∀ t n, s.Total = some t → s.NumDocsRetrieved = some n → n ≤ t) := by
  obtain ⟨hT0, hN0⟩ := newSlicedScrollCursor_ok_shape id max field q c0 hok
  have hlink : c0.Total = none ↔ c0.NumDocsRetrieved = none := by rw [hT0, hN0]
  have hb0 : ∀ t n, c0.Total = some t → c0.NumDocsRetrieved = some n → n ≤ t := by
    intro t n h1
    rw [hT0] at h1
    cases h1
  exact ⟨stateTrace_chain_mono cls c0 hlink,
         fun hrun => stateTrace_all_bounded cls c0 hlink hb0 hrun⟩

theorem retrieved_monotone_and_bounded_witness :
    List.Chain' (· ≤ ·)
      ((stateTrace
          ({ query := [], sliceID := 0, sliceMax := 1, sliceField := "",
             Total := none, NumDocsRetrieved := none, lastScrollID := "" } :
             SlicedScrollCursor Nat Nat String)
          [constClient { scrollID := "sg", hits := { total := 2, hits := [5] },
                         shards := { total := 1, successful := 1, failed := 0 } }]).map
        (fun s => s.NumDocsRetrieved.getD 0)) ∧
    (1 : Int) ≤ 2 := by
  have h :=
    retrieved_monotone_and_bounded (α := Nat) (H := Nat) (E := String) 0 1 "" []
      { query := [], sliceID := 0, sliceMax := 1, sliceField := "",
        Total := none, NumDocsRetrieved := none, lastScrollID := "" }
      rfl
      [constClient { scrollID := "sg", hits := { total := 2, hits := [5] },
                     shards := { total := 1, successful := 1, failed := 0 } }]
  refine ⟨h.1, ?_⟩
  have hok : OkRun (α := Nat) (H := Nat) (E := String)
      { query := [], sliceID := 0, sliceMax := 1, sliceField := "",
        Total := none, NumDocsRetrieved := none, lastScrollID := "" }
      [constClient { scrollID := "sg", hits := { total := 2, hits := [5] },
                     shards := { total := 1, successful := 1, failed := 0 } }] := by
    refine ⟨⟨?_, ?_⟩, trivial⟩
    · intro _ r hr
      have h' : (Except.ok { scrollID := "sg", hits := { total := 2, hits := [5] },
                             shards := { total := 1, successful := 1, failed := 0 } } :
                  Except String (ESSearchResponse Nat)) = Except.ok r := hr
      rw [Except.ok.injEq] at h'
      subst h'
      decide
    · intro t n ht
      exact Option.noConfusion ht
  exact h.2 hok
    { query := [], sliceID := 0, sliceMax := 1, sliceField := "",
      Total := some 2, NumDocsRetrieved := some 1, lastScrollID := "sg" }
    (by decide) 2 1 rfl rfl

theorem processingProgressGo_none {α H E : Type} :
    ∀ (cs : List (SlicedScrollCursor α H E)) (c t : Int),
      (∃ cur ∈ cs, cur.Total = none ∨ cur.NumDocsRetrieved = none) →
      processingProgressGo cs c t = none := by
  intro cs
  induction cs with
  | nil =>
      intro c t h
      simp at h
  | cons cur rest ih =>
      intro c t h
      cases hT : cur.Total with
      | none => simp [processingProgressGo, hT]
      | some tt =>
          cases hN : cur.NumDocsRetrieved with
          | none => simp [processingProgressGo, hT, hN]
          | some nn =>
              have hrest : ∃ cur' ∈ rest,
                  cur'.Total = none ∨ cur'.NumDocsRetrieved = none := by
                obtain ⟨cur', hmem, hcur'⟩ := h
                rcases List.mem_cons.mp hmem with rfl | hmem'
                · rcases hcur' with h' | h'
                  · rw [h'] at hT
                    cases hT
                  · rw [h'] at hN
                    cases hN
                · exact ⟨cur', hmem', hcur'⟩
              simp only [processingProgressGo, hT, hN]
              exact ih _ _ hrest

theorem processingProgressGo_some {α H E : Type} :
    ∀ (cs : List (SlicedScrollCursor α H E)) (c t : Int),
      (∀ cur ∈ cs, cur.Total ≠ none ∧ cur.NumDocsRetrieved ≠ none) →
      processingProgressGo cs c t =
        some (c + (cs.map (fun cur => cur.NumDocsRetrieved.getD 0)).sum,
              t + (cs.map (fun cur => cur.Total.getD 0)).sum) := by
  intro cs
  induction cs with
  | nil =>
      intro c t _
      simp [processingProgressGo]
  | cons cur rest ih =>
      intro c t h
      obtain ⟨hT', hN'⟩ := h cur (by simp)
      cases hT : cur.Total with
      | none => exact absurd hT hT'
      | some tt =>
          cases hN : cur.NumDocsRetrieved with
          | none => exact absurd hN hN'
          | some nn =>
              simp only [processingProgressGo, hT, hN]
              rw [ih (c + nn) (t + tt)
                    (fun cur' hm => h cur' (List.mem_cons_of_mem _ hm))]
              simp only [List.map_cons, hT, hN, Option.getD_some, List.sum_cons,
                Option.some.injEq, Prod.mk.injEq]
              constructor <;> ring

/-- **C9.** On cursors whose counters are nil-linked (as every reachable
cursor is), the aggregate-progress computation yields `none` exactly while
some cursor's total is still unknown, and otherwise the pair (sum of
retrieved counts, sum of totals). -/
theorem processingProgress_aggregate {α H E : Type}
    (cursors : List (SlicedScrollCursor α H E))
    (hinv : ∀ cur ∈ cursors, cur.Total = none ↔ cur.NumDocsRetrieved = none) :
    ((∃ cur ∈ cursors, cur.Total = none) → processingProgress cursors = none) ∧
    ((∀ cur ∈ cursors, cur.Total ≠ none) →
      processingProgress cursors =
        some ((cursors.map (fun cur => cur.NumDocsRetrieved.getD 0)).sum,
              (cursors.map (fun cur => cur.Total.getD 0)).sum)) := by
  constructor
  · intro h
    obtain ⟨cur, hm, hT⟩ := h
    exact processingProgressGo_none cursors 0 0 ⟨cur, hm, Or.inl hT⟩
  · intro hall
    have h := processingProgressGo_some cursors 0 0
      (fun cur hm => ⟨hall cur hm, fun hN => hall cur hm ((hinv cur hm).mpr hN)⟩)
    simpa [processingProgress] using h

theorem processingProgress_aggregate_witness :
    processingProgress (α := Nat) (H := Nat) (E := String)
      [{ query := [], sliceID := 0, sliceMax := 2, sliceField := "",
         Total := some 10, NumDocsRetrieved := some 5, lastScrollID := "a" },
       { query := [], sliceID := 1, sliceMax := 2, sliceField := "",
         Total := some 20, NumDocsRetrieved := some 10, lastScrollID := "b" }] =
      some (15, 30) ∧
    (15 : ℚ) / 30 * 100 = 50 := by
  have h :=
    (processingProgress_aggregate (α := Nat) (H := Nat) (E := String)
      [{ query := [], sliceID := 0, sliceMax := 2, sliceField := "",
         Total := some 10, NumDocsRetrieved := some 5, lastScrollID := "a" },
       { query := [], sliceID := 1, sliceMax := 2, sliceField := "",
         Total := some 20, NumDocsRetrieved := some 10, lastScrollID := "b" }]
      (by decide)).2 (by decide)
  refine ⟨by rw [h]; decide, by norm_num⟩

/-- **C6.** For a decoded response with HTTP status 200, the client layer
returns the body unchanged when its shard statistics are complete
(`failed = 0` and `successful = total`) and rejects it with the
shard-incompleteness error otherwise. -/
theorem shard_validation_iff {H : Type} (resp : HTTPResponse H)
    (h200 : resp.statusCode = 200) (body : ESSearchResponse H)
    (hbody : resp.decodedBody = some body) :
    ((body.shards.failed = 0 ∧ body.shards.successful = body.shards.total) →
        searchResponse resp = Except.ok body) ∧
    (¬(body.shards.failed = 0 ∧ body.shards.successful = body.shards.total) →
        searchResponse resp =
          Except.error (ClientError.responseIncomplete body.shards.total
            body.shards.successful body.shards.failed)) := by
  constructor <;> intro h <;>
    simp [searchResponse, h200, hbody, validateShardsResponse, h]

theorem shard_validation_iff_witness :
    searchResponse (H := Nat)
      { statusCode := 200,
        decodedBody := some { scrollID := "a", hits := { total := 1, hits := [3] },
                              shards := { total := 2, successful := 2, failed := 0 } } } =
      Except.ok { scrollID := "a", hits := { total := 1, hits := [3] },
                  shards := { total := 2, successful := 2, failed := 0 } } ∧
    searchResponse (H := Nat)
      { statusCode := 200,
        decodedBody := some { scrollID := "b", hits := { total := 1, hits := [3] },
                              shards := { total := 2, successful := 1, failed := 1 } } } =
      Except.error (ClientError.responseIncomplete 2 1 1) :=
  ⟨(shard_validation_iff _ rfl _ rfl).1 (by decide),
   (shard_validation_iff _ rfl _ rfl).2 (by decide)⟩

theorem processCursor_succ {α H E : Type} (write : List H → Except E Unit)
    (output : Bool) (clients : Nat → ESClient α H E) (fuel step : Nat)
    (c : SlicedScrollCursor α H E) :
    processCursor write output clients (fuel + 1) step c =
      (let r := Next c (clients step)
       match r.err with
       | some e => some (Except.error e)
       | none =>
           if r.hits.length = 0 then
             some (Except.ok ())
           else if output then
             match write r.hits with
             | Except.error e => some (Except.error e)
             | Except.ok _ => processCursor write output clients fuel (step + 1) r.state
           else
             processCursor write output clients fuel (step + 1) r.state) := rfl

theorem loopSteps_succ {α H E : Type} (write : List H → Except E Unit)
    (output : Bool) (clients : Nat → ESClient α H E) (k step : Nat)
    (c : SlicedScrollCursor α H E) :
    loopSteps write output clients (k + 1) step c =
      (let r := Next c (clients step)
       match r.err, r.hits with
       | none, _ :: _ =>
           if output then
             match write r.hits with
             | Except.ok _ => loopSteps write output clients k (step + 1) r.state
             | Except.error _ => none
           else
             loopSteps write output clients k (step + 1) r.state
       | _, _ => none) := rfl

/-- **C5.** If, after any number of completed iterations of the
`processCursor` loop, the `next()` call of the following iteration fails with
an error, `processCursor` ends and returns exactly that error (it never
reports success after a failed `next()`). -/
theorem processCursor_propagates_next_error {α H E : Type}
    (write : List H → Except E Unit) (output : Bool)
    (clients : Nat → ESClient α H E) :
    ∀ (k step : Nat) (c c' : SlicedScrollCursor α H E) (e : E),
      loopSteps write output clients k step c = some c' →
      (Next c' (clients (step + k))).err = some e →
      ∀ m : Nat, processCursor write output clients (k + m + 1) step c =
        some (Except.error e) := by
  intro k
  induction k with
  | zero =>
      intro step c c' e hloop herr m
      simp [loopSteps] at hloop
      subst hloop
      rw [Nat.add_zero] at herr
      rw [(show 0 + m + 1 = m + 1 by omega), processCursor_succ]
      simp only [herr]
  | succ k ih =>
      intro step c c' e hloop herr m
      rw [loopSteps_succ] at hloop
      simp only at hloop
      cases hne : (Next c (clients step)).err with
      | some e0 =>
          rw [hne] at hloop
          cases hloop
      | none =>
          rw [hne] at hloop
          cases hh : (Next c (clients step)).hits with
          | nil =>
              rw [hh] at hloop
              cases hloop
          | cons x xs =>
              rw [hh] at hloop
              simp only at hloop
              have herr' :
                  (Next c' (clients (step + 1 + k))).err = some e := by
                rw [(show step + 1 + k = step + (k + 1) by omega)]
                exact herr
              rw [(show k + 1 + m + 1 = (k + m + 1) + 1 by omega),
                  processCursor_succ]
              simp only [hne, hh, List.length_cons]
              rw [if_neg (show xs.length + 1 ≠ 0 by omega)]
              by_cases ho : output
              · rw [if_pos ho]
                rw [if_pos ho] at hloop
                cases hw : write (x :: xs) with
                | error e0 =>
                    rw [hw] at hloop
                    simp only at hloop
                    cases hloop
                | ok u =>
                    rw [hw] at hloop
                    simp only at hloop
                    exact ih (step + 1) _ c' e hloop herr' m
              · rw [if_neg ho]
                rw [if_neg ho] at hloop
                exact ih (step + 1) _ c' e hloop herr' m

theorem processCursor_propagates_next_error_witness :
    loopSteps (α := Nat) (H := Nat) (E := String) (fun _ => Except.ok ()) false
      (fun st =>
        if st = 0 then
          constClient { scrollID := "s1", hits := { total := 5, hits := [1] },
                        shards := { total := 1, successful := 1, failed := 0 } }
        else
          { search := fun _ => Except.error "boom",
            scroll := fun _ => Except.error "boom" })
      1 0
      { query := [], sliceID := 0, sliceMax := 1, sliceField := "",
        Total := none, NumDocsRetrieved := none, lastScrollID := "" } =
      some { query := [], sliceID := 0, sliceMax := 1, sliceField := "",
             Total := some 5, NumDocsRetrieved := some 1, lastScrollID := "s1" } ∧
    processCursor (α := Nat) (H := Nat) (E := String) (fun _ => Except.ok ()) false
      (fun st =>
        if st = 0 then
          constClient { scrollID := "s1", hits := { total := 5, hits := [1] },
                        shards := { total := 1, successful := 1, failed := 0 } }
        else
          { search := fun _ => Except.error "boom",
            scroll := fun _ => Except.error "boom" })
      2 0
      { query := [], sliceID := 0, sliceMax := 1, sliceField := "",
        Total := none, NumDocsRetrieved := none, lastScrollID := "" } =
      some (Except.error "boom") :=
  ⟨rfl,
   processCursor_propagates_next_error (fun _ => Except.ok ()) false
     (fun st =>
       if st = 0 then
         constClient { scrollID := "s1", hits := { total := 5, hits := [1] },
                       shards := { total := 1, successful := 1, failed := 0 } }
       else
         { search := fun _ => Except.error "boom",
           scroll := fun _ => Except.error "boom" })
     1 0
     { query := [], sliceID := 0, sliceMax := 1, sliceField := "",
       Total := none, NumDocsRetrieved := none, lastScrollID := "" }
     { query := [], sliceID := 0, sliceMax := 1, sliceField := "",
       Total := some 5, NumDocsRetrieved := some 1, lastScrollID := "s1" }
     "boom" rfl rfl 0⟩

example :
    searchQuery (H := Nat) (E := String)
      { query := [("query", QVal.base (0 : Nat))], sliceID := 1, sliceMax := 2,
        sliceField := "", Total := none, NumDocsRetrieved := none, lastScrollID := "" } =
      [("query", QVal.base 0), ("slice", QVal.sliceObj 1 2 none)] := by decide

example :
    searchQuery (H := Nat) (E := String)
      { query := [("query", QVal.base (0 : Nat))], sliceID := 1, sliceMax := 0,
        sliceField := "my_field", Total := none, NumDocsRetrieved := none,
        lastScrollID := "" } = [("query", QVal.base 0)] := by decide

end Esexport
